import Mathlib

/-!
# Verification of the edrag course-assistant retrieval pipeline

A shallow embedding, in Lean 4, of the core functions of the
`edrag-course-assistant` repository, together with theorems settling the
frozen claims about its specification.

Conventions of the embedding:
* A text is represented by its token sequence (`List Nat`), the output of
  the external deterministic tokenizer (`tiktoken`, encoding `cl100k_base`)
  applied to it; `enc.encode`/`enc.decode` are outside the repository, so
  chunking is modelled directly on the token lists it slices.
* Python `while` loops that may not terminate are given fuel: a result of
  `none` for every fuel is non-termination of the loop.
* Python `int` loop indices are `Int`; Python slice clamping is modelled
  exactly (`pyIndex`, `pySlice`).
* External network collaborators (the LLM, `json.loads`, the environment)
  are parameters of the embedded functions: an `Except` - valued parameter
  stands for a call that can raise.
* Similarity scores (Python floats compared against the literal `0.7`) are
  modelled as rationals.
-/

/-! ## Token-aware chunking (`backend/ingest.py`, `chunk_text_tokenwise`) -/

/-- Python index clamping for a slice bound `j` over a list of length `n`:
a negative index counts from the end (clamped below at 0), a non-negative
one is clamped above at `n`. -/
def pyIndex (n : Nat) (j : Int) : Nat :=
  if j < 0 then ((n : Int) + j).toNat else min j.toNat n

/-- Python `xs[a : b]`. -/
def pySlice (xs : List Nat) (a b : Int) : List Nat :=
  (xs.take (pyIndex xs.length b)).drop (pyIndex xs.length a)

/-- The `while i < len(tokens)` loop of `chunk_text_tokenwise`, with fuel.
Each iteration appends the window `tokens[i : i + max_tokens]` and advances
`i` by `step = max_tokens - overlap` (an `Int`: the Python subtraction is
not clamped at zero). `none` means the fuel ran out before the loop
finished; the loop body itself never fails. -/
def chunk_text_tokenwise_loop (tokens : List Nat) (max_tokens : Nat) (step : Int) :
    Nat → Int → Option (List (List Nat))
  | 0, _ => none
  | fuel + 1, i =>
    if i < (tokens.length : Int) then
      match chunk_text_tokenwise_loop tokens max_tokens step fuel (i + step) with
      | none => none
      | some rest => some (pySlice tokens i (i + (max_tokens : Int)) :: rest)
    else some []

/-- `chunk_text_tokenwise(text, max_tokens, overlap)` over the token
sequence of `text`. Mirrors the source: no validation of
`overlap < max_tokens` is performed; an empty token sequence returns `[]`
before the loop; otherwise the sliding-window loop runs. The fuel
`tokens.length + 1` is sufficient whenever the step is positive
(`chunk_text_tokenwise_eq_chunkFrom` below); when the step is not positive
the loop never finishes for any fuel (`chunk_text_tokenwise_loop_diverges`). -/
def chunk_text_tokenwise (tokens : List Nat) (max_tokens : Nat := 500)
    (overlap : Nat := 100) : Option (List (List Nat)) :=
  if tokens = [] then some []
  else
    chunk_text_tokenwise_loop tokens max_tokens
      ((max_tokens : Int) - (overlap : Int)) (tokens.length + 1) 0

/-- Closed form of the window sequence the loop produces from index `i`
when the step is positive: the windows at `i, i + step, i + 2*step, …`
while the start stays below the token count. -/
def chunkFrom (tokens : List Nat) (max_tokens step i : Nat) : List (List Nat) :=
  if h : step = 0 ∨ tokens.length ≤ i then []
  else (tokens.drop i).take max_tokens :: chunkFrom tokens max_tokens step (i + step)
termination_by tokens.length - i
decreasing_by
  simp only [not_or] at h
  omega

theorem chunkFrom_nil {tokens : List Nat} {max_tokens step i : Nat}
    (h : step = 0 ∨ tokens.length ≤ i) : chunkFrom tokens max_tokens step i = [] := by
  rw [chunkFrom]
  simp [h]

theorem chunkFrom_cons {tokens : List Nat} {max_tokens step i : Nat}
    (h1 : step ≠ 0) (h2 : i < tokens.length) :
    chunkFrom tokens max_tokens step i
      = (tokens.drop i).take max_tokens :: chunkFrom tokens max_tokens step (i + step) := by
  rw [chunkFrom]
  simp [h1, Nat.not_le.mpr h2]

/-- A slice `tokens[j : j + m]` at a non-negative start is drop-then-take. -/
theorem pySlice_nonneg (xs : List Nat) (j m : Nat) :
    pySlice xs (j : Int) ((j : Int) + (m : Int)) = (xs.drop j).take m := by
  unfold pySlice pyIndex
  have hj : ¬ ((j : Int) < 0) := by omega
  have hjm : ¬ ((j : Int) + (m : Int) < 0) := by omega
  have h1 : ((j : Int) + (m : Int)).toNat = j + m := by omega
  have h2 : ((j : Int)).toNat = j := by omega
  simp only [hj, hjm, if_neg, h1, h2, not_false_eq_true]
  rcases Nat.le_total xs.length j with hle | hle
  · have : min j xs.length = xs.length := by omega
    rw [this]
    have hdrop : xs.drop j = [] := List.drop_eq_nil_of_le hle
    rw [hdrop, List.take_nil]
    have : xs.take (min (j + m) xs.length) = xs.take xs.length := by
      rw [List.take_eq_take]
      omega
    rw [this, List.take_length, List.drop_eq_nil_of_le]
    omega
  · have hminj : min j xs.length = j := by omega
    rw [hminj, List.drop_take, List.take_eq_take]
    simp only [List.length_drop]
    omega

/-- With a positive step and enough fuel, the loop computes `chunkFrom`. -/
theorem chunk_text_tokenwise_loop_eq (tokens : List Nat) (max_tokens step : Nat)
    (hstep : 1 ≤ step) :
    ∀ fuel i, tokens.length - i < fuel →
      chunk_text_tokenwise_loop tokens max_tokens (step : Int) fuel (i : Int)
        = some (chunkFrom tokens max_tokens step i) := by
  intro fuel
  induction fuel with
  | zero => intro i h; omega
  | succ f ih =>
    intro i h
    rw [chunk_text_tokenwise_loop]
    by_cases hi : i < tokens.length
    · have hlt : (i : Int) < (tokens.length : Int) := by omega
      rw [if_pos hlt]
      have hcast : (i : Int) + (step : Int) = ((i + step : Nat) : Int) := by omega
      rw [hcast, ih (i + step) (by omega)]
      rw [pySlice_nonneg, chunkFrom_cons (by omega) hi]
    · have hlt : ¬ ((i : Int) < (tokens.length : Int)) := by omega
      rw [if_neg hlt, chunkFrom_nil (Or.inr (by omega))]

/-- For a valid configuration (`overlap < max_tokens`) the embedded
function terminates and returns the `chunkFrom` windows. -/
theorem chunk_text_tokenwise_eq_chunkFrom (tokens : List Nat) (max_tokens overlap : Nat)
    (h : overlap < max_tokens) :
    chunk_text_tokenwise tokens max_tokens overlap
      = some (chunkFrom tokens max_tokens (max_tokens - overlap) 0) := by
  unfold chunk_text_tokenwise
  by_cases ht : tokens = []
  · rw [if_pos ht, chunkFrom_nil (Or.inr (by simp [ht]))]
  · rw [if_neg ht]
    have hcast : (max_tokens : Int) - (overlap : Int) = ((max_tokens - overlap : Nat) : Int) := by
      omega
    rw [hcast]
    have h0 : ((0 : Nat) : Int) = (0 : Int) := rfl
    rw [← h0]
    exact chunk_text_tokenwise_loop_eq tokens max_tokens (max_tokens - overlap)
      (by omega) (tokens.length + 1) 0 (by omega)

/-- With a non-positive step and a non-empty token list, the loop runs out
of any amount of fuel: the index never reaches the token count, so the
Python `while` loop never terminates. -/
theorem chunk_text_tokenwise_loop_diverges (tokens : List Nat) (max_tokens : Nat)
    (step : Int) (hstep : step ≤ 0) (ht : tokens ≠ []) :
    ∀ fuel (i : Int), i ≤ 0 →
      chunk_text_tokenwise_loop tokens max_tokens step fuel i = none := by
  intro fuel
  induction fuel with
  | zero => intro i _; rfl
  | succ f ih =>
    intro i hi
    have hlen : 1 ≤ tokens.length := by
      cases tokens with
      | nil => exact absurd rfl ht
      | cons a l => simp
    rw [chunk_text_tokenwise_loop]
    have hlt : i < (tokens.length : Int) := by omega
    rw [if_pos hlt, ih (i + step) (by omega)]

/-- Chunks `a` and `b` share exactly `o` tokens at their boundary: both
have at least `o` tokens and the trailing `o` tokens of `a` equal the
leading `o` tokens of `b`. -/
def shares_exactly (o : Nat) (a b : List Nat) : Prop :=
  o ≤ a.length ∧ o ≤ b.length ∧ a.drop (a.length - o) = b.take o

instance (o : Nat) (a b : List Nat) : Decidable (shares_exactly o a b) := by
  unfold shares_exactly
  exact inferInstance

/-- The consecutive pairs of a list of chunks, in order. -/
def consecutive_pairs : List (List Nat) → List (List Nat × List Nat)
  | [] => []
  | [_] => []
  | a :: b :: rest => (a, b) :: consecutive_pairs (b :: rest)

/-- Every window `chunkFrom` emits has at most `max_tokens` tokens. -/
theorem chunkFrom_length_le (tokens : List Nat) (max_tokens step : Nat) :
    ∀ i, ∀ c ∈ chunkFrom tokens max_tokens step i, c.length ≤ max_tokens := by
  intro i
  induction i using chunkFrom.induct tokens max_tokens step with
  | case1 i h => rw [chunkFrom_nil h]; intro c hc; cases hc
  | case2 i h ih =>
    simp only [not_or] at h
    rw [chunkFrom_cons h.1 (by omega)]
    intro c hc
    rcases List.mem_cons.mp hc with hc | hc
    · subst hc
      simp only [List.length_take, List.length_drop]
      omega
    · exact ih c hc

/-- A full window at offset `i` shares exactly `overlap` tokens with the
next window, at offset `i + (max_tokens - overlap)`. -/
theorem shares_exactly_of_full (tokens : List Nat) (max_tokens overlap i : Nat)
    (hO : overlap < max_tokens) (hfull : i + max_tokens ≤ tokens.length) :
    shares_exactly overlap ((tokens.drop i).take max_tokens)
      ((tokens.drop (i + (max_tokens - overlap))).take max_tokens) := by
  have hlen1 : ((tokens.drop i).take max_tokens).length = max_tokens := by
    simp only [List.length_take, List.length_drop]
    omega
  refine ⟨by omega, ?_, ?_⟩
  · simp only [List.length_take, List.length_drop]
    omega
  · rw [hlen1, List.drop_take, List.drop_drop, List.take_take]
    have e1 : max_tokens - (max_tokens - overlap) = overlap := by omega
    have e2 : min overlap max_tokens = overlap := by omega
    rw [e1, e2]

/-- Every consecutive pair of `chunkFrom` windows whose first member is a
full window (exactly `max_tokens` tokens) shares exactly `overlap` tokens,
when the step is `max_tokens - overlap` with `overlap < max_tokens`. -/
theorem chunkFrom_pairs_share (tokens : List Nat) (max_tokens overlap : Nat)
    (hO : overlap < max_tokens) :
    ∀ i, ∀ p ∈ consecutive_pairs (chunkFrom tokens max_tokens (max_tokens - overlap) i),
      p.1.length = max_tokens → shares_exactly overlap p.1 p.2 := by
  intro i
  induction i using chunkFrom.induct tokens max_tokens (max_tokens - overlap) with
  | case1 i h => rw [chunkFrom_nil h]; intro p hp; cases hp
  | case2 i h ih =>
    simp only [not_or] at h
    rw [chunkFrom_cons h.1 (by omega)]
    intro p hp hfull
    rcases hnext : chunkFrom tokens max_tokens (max_tokens - overlap) (i + (max_tokens - overlap))
      with _ | ⟨b, rest⟩
    · rw [hnext] at hp
      cases hp
    · rw [hnext] at hp
      rcases List.mem_cons.mp hp with hp | hp
      · subst hp
        have hfull' : i + max_tokens ≤ tokens.length := by
          have := hfull
          simp only [List.length_take, List.length_drop] at this
          omega
        have hb : b = (tokens.drop (i + (max_tokens - overlap))).take max_tokens := by
          by_cases hcase : (max_tokens - overlap) = 0 ∨
              tokens.length ≤ i + (max_tokens - overlap)
          · rw [chunkFrom_nil hcase] at hnext
            cases hnext
          · simp only [not_or] at hcase
            rw [chunkFrom_cons hcase.1 (by omega)] at hnext
            exact (List.cons.injEq _ _ _ _ ▸ hnext).1.symm
        subst hb
        exact shares_exactly_of_full tokens max_tokens overlap i hO hfull'
      · exact ih p (hnext ▸ hp) hfull

/-! ## Per-file processing (`backend/ingest.py`, `process_single_file`) -/

/-- One extracted segment of a document, as `process_single_file` sees it:
`blank` models the skip condition `not text or len(text.strip()) == 0`,
`tokens` the token sequence of the segment's text, `locator` the 1-based
page or slide number (`None` for flat files). -/
structure Page where
  blank : Bool
  tokens : List Nat
  locator : Option Nat
deriving DecidableEq

/-- The chunk-collection loop of `process_single_file` (lines 224-243 of
`backend/ingest.py`): blank segments are skipped, every other segment is
chunked by `chunk_text_tokenwise`, and each chunk is recorded with the
segment's locator (`page_or_slide`) and its 0-based `chunk_index` within
the segment. `none` propagates a non-terminating chunking call. Embedding,
uuid generation and the Chroma insert that follow are external effects that
do not alter the chunk records. -/
def process_file_chunks (parts : List Page) (max_tokens overlap : Nat) :
    Option (List (List Nat × Option Nat × Nat)) :=
  match parts with
  | [] => some []
  | p :: rest =>
    if p.blank then process_file_chunks rest max_tokens overlap
    else
      match chunk_text_tokenwise p.tokens max_tokens overlap with
      | none => none
      | some cs =>
        match process_file_chunks rest max_tokens overlap with
        | none => none
        | some others =>
          some ((cs.enum.map (fun ic => (ic.2, p.locator, ic.1))) ++ others)

/-! ## The index collection (`backend/ingest.py`, `insert_chunks_to_collection`) -/

/-- The metadata stored with a chunk, as `process_single_file` builds it. -/
structure ChunkMetadata where
  course_id : String
  lecture_id : Option String
  source : String
  page_or_slide : Option Nat
  chunk_index : Nat
deriving DecidableEq

/-- One stored entry of a collection: document text, metadata, embedding. -/
structure ChunkEntry where
  document : String
  metadata : ChunkMetadata
  embedding : List ℚ
deriving DecidableEq

/-- A named collection's contents: entries keyed by chunk id, in insertion
order. -/
abbrev Collection := List (String × ChunkEntry)

/-- Modelled from the spec: `coll.add` of the Chroma collection is code of
the external vector store, not of this repository; §4.4 of the spec gives
its contract — `upsert(chunk_id, text, metadata, vector)`, idempotent by
chunk id: re-inserting an existing id replaces that entry in place rather
than adding a duplicate. -/
def collection_upsert (coll : Collection) (id : String) (e : ChunkEntry) : Collection :=
  match coll with
  | [] => [(id, e)]
  | (i, x) :: rest =>
    if i = id then (i, e) :: rest else (i, x) :: collection_upsert rest id e

/-- `insert_chunks_to_collection(coll, ids, documents, metadatas,
embeddings)`: passes the parallel lists through to the store entry by
entry. -/
def insert_chunks_to_collection (coll : Collection) (ids : List String)
    (documents : List String) (metadatas : List ChunkMetadata)
    (embeddings : List (List ℚ)) : Collection :=
  ((ids.zip (documents.zip (metadatas.zip embeddings)))).foldl
    (fun c ide => collection_upsert c ide.1 ⟨ide.2.1, ide.2.2.1, ide.2.2.2⟩) coll

theorem collection_upsert_idem (coll : Collection) (id : String) (e : ChunkEntry) :
    collection_upsert (collection_upsert coll id e) id e
      = collection_upsert coll id e := by
  induction coll with
  | nil => simp [collection_upsert]
  | cons hd tl ih =>
    obtain ⟨i, x⟩ := hd
    by_cases h : i = id
    · simp [collection_upsert, h]
    · simp [collection_upsert, h, ih]

/-! ## The quiz generator (`backend/quiz_generator.py`) -/

/-- A JSON value, the result of `json.loads` on the model's response. -/
inductive Json where
  | null : Json
  | bool : Bool → Json
  | num : Int → Json
  | str : String → Json
  | arr : List Json → Json
  | obj : List (String × Json) → Json

/-- Lookup of a key in a JSON object; `none` for other shapes. -/
def Json.get : Json → String → Option Json
  | Json.obj fields, key => fields.lookup key
  | _, _ => none

/-- The quiz store (`backend/database.py`): rows of (topic, questions
JSON), appended in insertion order. -/
abbrev QuizStore := List (String × Json)

/-- `save_quiz(topic, questions)`: INSERT a new row. -/
def save_quiz (db : QuizStore) (topic : String) (questions : Json) : QuizStore :=
  db ++ [(topic, questions)]

/-- The quiz prompt f-string of `QuizGenerator.generate_quiz`
(`backend/quiz_generator.py`; the `src/quiz_generator.py` copy differs only
in the wording of this prompt). -/
def quiz_prompt (topic : String) (num_questions : Nat) (context : String) : String :=
  "\n        Based on the following context about " ++ topic ++ ", generate a "
    ++ toString num_questions ++ "-question multiple choice quiz.\n"
    ++ "        Format your response as a JSON object with the following structure:\n"
    ++ "        \x7b\n"
    ++ "            \"quiz_title\": \"Quiz about [topic]\",\n"
    ++ "            \"questions\": [\n"
    ++ "                \x7b\n"
    ++ "                    \"question\": \"Question text\",\n"
    ++ "                    \"options\": [\"Option 1\", \"Option 2\", \"Option 3\", \"Option 4\"],\n"
    ++ "                    \"correct_answer\": 0  // Index of the correct option (0-3)\n"
    ++ "                \x7d\n"
    ++ "            ]\n"
    ++ "        \x7d\n"
    ++ "        \n"
    ++ "        Context:\n"
    ++ "        " ++ context ++ "\n        "

/-- `QuizGenerator.generate_quiz(topic, context, num_questions)`.
`complete` stands for `self.llm.complete` and `loads` for `json.loads`;
either may raise (`Except.error`), which the `try` block turns into a
`None` result. The parsed object is saved to the store and returned with
no validation of its shape. Returns (the quiz object or `None`, the store
after the call). -/
def generate_quiz (complete : String → Except String String)
    (loads : String → Except String Json) (db : QuizStore)
    (topic context : String) (num_questions : Nat := 5) :
    Option Json × QuizStore :=
  match complete (quiz_prompt topic num_questions context) with
  | Except.error _ => (none, db)
  | Except.ok text =>
    match loads text with
    | Except.error _ => (none, db)
    | Except.ok quiz_data => (some quiz_data, save_quiz db topic quiz_data)

/-- Modelled from the spec: the validation §4.7 requires of one parsed
question — exactly 4 options and a correct-answer index within [0, 3]
(no such check exists in the repository's code). -/
def spec_question_valid (q : Json) : Bool :=
  match q.get "options", q.get "correct_answer" with
  | some (Json.arr opts), some (Json.num i) =>
    opts.length == 4 && (0 ≤ i && i ≤ 3)
  | _, _ => false

/-- Modelled from the spec: the validation §4.7 requires of a parsed quiz —
a title, a non-empty question list, and every question valid (no such
check exists in the repository's code). -/
def spec_quiz_valid (j : Json) : Bool :=
  match j.get "quiz_title", j.get "questions" with
  | some (Json.str _), some (Json.arr qs) =>
    !qs.isEmpty && qs.all spec_question_valid
  | _, _ => false

/-! ## The query rewriter (`src/query_rewriter.py`) -/

/-- The rewrite prompt f-string of `QueryRewriter.rewrite_query`. -/
def rewrite_prompt (original_query : String) : String :=
  "\n        Rewrite the following student question to be more effective for "
    ++ "retrieving relevant information from educational materials.\n"
    ++ "        Make it more specific, clear, and focused on key concepts.\n"
    ++ "        \n"
    ++ "        Original query: \"" ++ original_query ++ "\"\n"
    ++ "        \n"
    ++ "        Rewritten query:\n        "

/-- `QueryRewriter.rewrite_query(original_query)`: one model call; on
success the response text is stripped (`String.trim`) and returned, on any
exception the original query is returned unchanged. The function is total:
it never propagates the exception. -/
def rewrite_query (complete : String → Except String String)
    (original_query : String) : String :=
  match complete (rewrite_prompt original_query) with
  | Except.ok response => response.trim
  | Except.error _ => original_query

/-! ## The query engine (`backend/query_engine.py`) -/

/-- What the engine reads off a retrieval-synthesis response: the answer
text (`str(response)`) and the similarity score of each source node, in
order. Scores are modelled as rationals. -/
structure QEResponse where
  answer : String
  source_nodes : List ℚ
deriving DecidableEq

/-- The score-scanning loop of `_is_low_confidence`: `False` as soon as a
node's score exceeds 0.7, `True` past the end. -/
def confidence_scan : List ℚ → Bool
  | [] => true
  | s :: rest => if s > 7/10 then false else confidence_scan rest

/-- `EnhancedQueryEngine._is_low_confidence(response)`: `True` when there
are no source nodes; otherwise `True` unless some node's score exceeds the
fixed threshold 0.7. -/
def is_low_confidence (response : QEResponse) : Bool :=
  if response.source_nodes = [] then true
  else confidence_scan response.source_nodes

/-- The result dictionary of `EnhancedQueryEngine.query`. -/
structure QueryResult where
  answer : String
  source_nodes : List ℚ
  videos : List String
deriving DecidableEq

/-- `EnhancedQueryEngine.query(question, get_videos)`. `rewrite` stands
for `self.query_rewriter.rewrite_query`, `engine_query` for
`self.query_engine.query` (retrieval + synthesis) and `yt_search` for
`self.youtube_searcher.search_educational_videos`. Returns the result
dictionary together with the list of arguments `yt_search` was invoked
with (the enrichment call log: empty when enrichment was not invoked). -/
def enhanced_query (rewrite : String → String) (engine_query : String → QEResponse)
    (yt_search : String → List String) (question : String) (get_videos : Bool) :
    QueryResult × List String :=
  let rewritten_query := rewrite question
  let response := engine_query rewritten_query
  let result : QueryResult :=
    { answer := response.answer, source_nodes := response.source_nodes, videos := [] }
  if get_videos || is_low_confidence response then
    ({ result with videos := yt_search question }, [question])
  else
    (result, [])

/-! ## YouTube search construction (`src/youtube_search.py`) -/

/-- The `YouTubeSearcher` object: it keeps the API key. -/
structure YouTubeSearcher where
  api_key : String
deriving DecidableEq

/-- `YouTubeSearcher.__init__`: reads `YOUTUBE_API_KEY` from the
environment (`env`); `if not self.api_key` — the key unset (`none`) or
empty — raises `ValueError`. -/
def youtube_searcher_init (env : String → Option String) :
    Except String YouTubeSearcher :=
  match env "YOUTUBE_API_KEY" with
  | none => Except.error "YouTube API key not found in environment variables"
  | some k =>
    if k = "" then Except.error "YouTube API key not found in environment variables"
    else Except.ok ⟨k⟩

/-- The state `EnhancedQueryEngine.__init__` must build before it can
serve queries (the collaborators it constructs). -/
structure EnhancedQueryEngine where
  youtube_searcher : YouTubeSearcher
deriving DecidableEq

/-- `EnhancedQueryEngine.__init__`: raises `FileNotFoundError` when the
persisted vector store is missing; otherwise constructs, in order, the
vector-store index, the LLM handle, and the `YouTubeSearcher` — whose
`ValueError` propagates, so the engine fails to construct. The index,
LLM, `QuizGenerator` and `QueryRewriter` constructors only store
configuration and cannot raise. -/
def enhanced_query_engine_init (persist_dir_exists : Bool)
    (env : String → Option String) : Except String EnhancedQueryEngine :=
  if !persist_dir_exists then
    Except.error "Vector store not found. Please run ingestion first."
  else
    match youtube_searcher_init env with
    | Except.error e => Except.error e
    | Except.ok y => Except.ok ⟨y⟩

/-! ## Claims -/

/-- C1: the source performs no validation of `overlap < max_tokens`. For a
non-empty token sequence and `overlap ≥ max_tokens` the call is not
rejected before tokenization as the spec requires: the text is tokenized
and the sliding-window loop never terminates (it returns `none` for every
amount of fuel). The spec states the intended behaviour (reject as a
configuration error); the code's missing check is the bug. -/
theorem chunk_overlap_ge_max_not_rejected (tokens : List Nat)
    (max_tokens overlap : Nat) (hMO : max_tokens ≤ overlap) (ht : tokens ≠ []) :
    (∀ fuel, chunk_text_tokenwise_loop tokens max_tokens
        ((max_tokens : Int) - (overlap : Int)) fuel 0 = none)
      ∧ chunk_text_tokenwise tokens max_tokens overlap = none := by
  have hstep : ((max_tokens : Int) - (overlap : Int)) ≤ 0 := by omega
  constructor
  · intro fuel
    exact chunk_text_tokenwise_loop_diverges tokens max_tokens _ hstep ht fuel 0 le_rfl
  · unfold chunk_text_tokenwise
    rw [if_neg ht]
    exact chunk_text_tokenwise_loop_diverges tokens max_tokens _ hstep ht _ 0 le_rfl

/-- C1 witness: the concrete failing input — one token, `max_tokens = 100`,
`overlap = 100`. -/
theorem chunk_overlap_ge_max_not_rejected_witness :
    chunk_text_tokenwise [0] 100 100 = none
      ∧ chunk_text_tokenwise_loop [0] 100 (((100 : Nat) : Int) - ((100 : Nat) : Int)) 5 0
          = none :=
  ⟨(chunk_overlap_ge_max_not_rejected [0] 100 100 (by decide) (by decide)).2,
   (chunk_overlap_ge_max_not_rejected [0] 100 100 (by decide) (by decide)).1 5⟩

/-- C3 counterexample: the token sequence `[0, 1]` is non-empty and
strictly shorter than `max_tokens = 3`, and `overlap = 2 < 3`, yet chunking
returns two chunks, not one: the step is `3 - 2 = 1`, so a second window
starts at token 1. -/
theorem chunk_short_text_two_chunks :
    chunk_text_tokenwise [0, 1] 3 2 = some [[0, 1], [1]]
      ∧ (chunk_text_tokenwise [0, 1] 3 2).map List.length = some 2 := by
  constructor
  · decide
  · decide

/-- C3 (amended): chunking the empty token sequence yields zero chunks
(for any parameters); a non-empty token sequence yields exactly one chunk
— the whole sequence — when its token count is at most the step
`max_tokens - overlap` (not merely below `max_tokens`). -/
theorem chunk_empty_and_short (tokens : List Nat) (max_tokens overlap : Nat)
    (ht : tokens ≠ []) (hO : overlap < max_tokens)
    (hshort : tokens.length ≤ max_tokens - overlap) :
    chunk_text_tokenwise [] max_tokens overlap = some []
      ∧ chunk_text_tokenwise tokens max_tokens overlap = some [tokens] := by
  constructor
  · simp [chunk_text_tokenwise]
  · have hlen : 0 < tokens.length := by
      cases tokens with
      | nil => exact absurd rfl ht
      | cons a l => simp
    rw [chunk_text_tokenwise_eq_chunkFrom tokens max_tokens overlap hO]
    rw [chunkFrom_cons (by omega) (by omega)]
    rw [chunkFrom_nil (Or.inr (by omega))]
    simp [List.take_of_length_le (by omega : tokens.length ≤ max_tokens)]

/-- C3 witness: one token, `max_tokens = 3`, `overlap = 1`. -/
theorem chunk_empty_and_short_witness :
    chunk_text_tokenwise [] 3 1 = some [] ∧ chunk_text_tokenwise [5] 3 1 = some [[5]] :=
  ⟨(chunk_empty_and_short [5] 3 1 (by decide) (by decide) (by decide)).1,
   (chunk_empty_and_short [5] 3 1 (by decide) (by decide) (by decide)).2⟩

/-- C7 counterexample: tokens `[0, 1, 2]`, `max_tokens = 4`, `overlap = 3`
(step 1) produce the chunks `[[0,1,2], [1,2], [2]]`. The consecutive pair
`([0,1,2], [1,2])` involves neither the last chunk nor the last pair, yet
the two chunks do not share exactly 3 tokens (`[1,2]` has only 2): the
exactly-`O`-overlap property fails off the last chunk whenever a window is
cut short by the end of the text. -/
theorem chunk_consecutive_overlap_fails :
    chunk_text_tokenwise [0, 1, 2] 4 3 = some [[0, 1, 2], [1, 2], [2]]
      ∧ consecutive_pairs [[0, 1, 2], [1, 2], [2]]
          = [([0, 1, 2], [1, 2]), ([1, 2], [2])]
      ∧ ¬ shares_exactly 3 [0, 1, 2] [1, 2] := by
  refine ⟨by decide, by decide, by decide⟩

/-- C7 (amended): every chunk has at most `max_tokens` tokens, and every
pair of consecutive chunks whose first member is a full window (exactly
`max_tokens` tokens) shares exactly `overlap` tokens — the trailing
`overlap` tokens of the first equal the leading `overlap` tokens of the
second. (Chunks shorter than `max_tokens` are exempt, not only the last
chunk.) -/
theorem chunk_bounds_and_overlap (tokens : List Nat) (max_tokens overlap : Nat)
    (cs : List (List Nat)) (hO : overlap < max_tokens)
    (hcs : chunk_text_tokenwise tokens max_tokens overlap = some cs) :
    (∀ c ∈ cs, c.length ≤ max_tokens)
      ∧ (∀ p ∈ consecutive_pairs cs, p.1.length = max_tokens →
          shares_exactly overlap p.1 p.2) := by
  rw [chunk_text_tokenwise_eq_chunkFrom tokens max_tokens overlap hO] at hcs
  have hcs' : cs = chunkFrom tokens max_tokens (max_tokens - overlap) 0 :=
    (Option.some.injEq _ _ ▸ hcs).symm
  subst hcs'
  exact ⟨chunkFrom_length_le tokens max_tokens _ 0,
    chunkFrom_pairs_share tokens max_tokens overlap hO 0⟩

/-- C7 witness: tokens `[0,1,2,3]`, `max_tokens = 2`, `overlap = 1` give
chunks `[[0,1],[1,2],[2,3],[3]]`; the first chunk is full and shares
exactly one token with the second. -/
theorem chunk_bounds_and_overlap_witness :
    ([0, 1] : List Nat).length ≤ 2 ∧ shares_exactly 1 [0, 1] [1, 2] :=
  ⟨(chunk_bounds_and_overlap [0, 1, 2, 3] 2 1 [[0, 1], [1, 2], [2, 3], [3]]
      (by decide) (by decide)).1 [0, 1] (by decide),
   (chunk_bounds_and_overlap [0, 1, 2, 3] 2 1 [[0, 1], [1, 2], [2, 3], [3]]
      (by decide) (by decide)).2 ([0, 1], [1, 2]) (by decide) (by decide)⟩

/-- C8: a two-segment document whose first segment has 1000 tokens and
whose second is blank, chunked with `max_tokens = 500`, `overlap = 100`,
yields exactly the three chunks of segment 1 at token offsets 0, 400 and
800 with `chunk_index` 0, 1, 2, and nothing from the blank segment. -/
theorem process_two_page_document (ts : List Nat) (h : ts.length = 1000) :
    process_file_chunks [⟨false, ts, some 1⟩, ⟨true, [], some 2⟩] 500 100
      = some [(ts.take 500, some 1, 0), ((ts.drop 400).take 500, some 1, 1),
              ((ts.drop 800).take 500, some 1, 2)] := by
  have hchunks : chunk_text_tokenwise ts 500 100
      = some [ts.take 500, (ts.drop 400).take 500, (ts.drop 800).take 500] := by
    rw [chunk_text_tokenwise_eq_chunkFrom ts 500 100 (by omega)]
    rw [chunkFrom_cons (by omega) (by omega)]
    rw [chunkFrom_cons (by omega) (by omega)]
    rw [chunkFrom_cons (by omega) (by omega)]
    rw [chunkFrom_nil (Or.inr (by omega))]
    norm_num
  simp [process_file_chunks, hchunks, List.enum, List.enumFrom]

/-- C8 witness: the concrete 1000-token segment `List.range 1000`. -/
theorem process_two_page_document_witness :
    process_file_chunks [⟨false, List.range 1000, some 1⟩, ⟨true, [], some 2⟩] 500 100
      = some [((List.range 1000).take 500, some 1, 0),
              (((List.range 1000).drop 400).take 500, some 1, 1),
              (((List.range 1000).drop 800).take 500, some 1, 2)] :=
  process_two_page_document (List.range 1000) (by simp)

/-- C4: re-inserting the same (id, text, metadata, vector) tuple leaves
the collection exactly as one insertion leaves it. The Chroma collection
itself is outside the repository; its insert is modelled from the spec's
§4.4 contract (upsert, idempotent by chunk id), and the repository's
`insert_chunks_to_collection` passes the tuple through unchanged. -/
theorem insert_chunks_idempotent (coll : Collection) (id document : String)
    (m : ChunkMetadata) (e : List ℚ) :
    insert_chunks_to_collection
        (insert_chunks_to_collection coll [id] [document] [m] [e])
        [id] [document] [m] [e]
      = insert_chunks_to_collection coll [id] [document] [m] [e] := by
  simp [insert_chunks_to_collection, collection_upsert_idem]

/-- C2 counterexample: `bad_quiz` — a parsed response with a title and one
question that has 4 options but `correct_answer = 5`. -/
def bad_quiz : Json :=
  Json.obj [("quiz_title", Json.str "Quiz about X"),
            ("questions", Json.arr [Json.obj
              [("question", Json.str "Q1"),
               ("options", Json.arr [Json.str "a", Json.str "b",
                                     Json.str "c", Json.str "d"]),
               ("correct_answer", Json.num 5)]])]

/-- C2 counterexample: when the model's response parses to `bad_quiz`
(`correct_answer = 5` against 4 options), `generate_quiz` does not reject
it: the quiz object is returned and is persisted to the store, although it
violates the validation the spec requires. -/
theorem quiz_out_of_bounds_persisted :
    generate_quiz (fun _ => Except.ok "RESPONSE") (fun _ => Except.ok bad_quiz)
        [] "X" "ctx" 5
      = (some bad_quiz, [("X", bad_quiz)])
      ∧ spec_quiz_valid bad_quiz = false := by
  refine ⟨rfl, rfl⟩

/-- C2 (amended): `generate_quiz` performs no shape validation. On a model
error or a JSON parse error it returns no quiz object and the store is
unchanged; whenever the response parses, the parsed object — of any shape
— is persisted to the store and returned. -/
theorem generate_quiz_no_validation (complete : String → Except String String)
    (loads : String → Except String Json) (db : QuizStore)
    (topic context : String) (n : Nat) :
    generate_quiz complete loads db topic context n = (none, db)
      ∨ ∃ s q, complete (quiz_prompt topic n context) = Except.ok s
          ∧ loads s = Except.ok q
          ∧ generate_quiz complete loads db topic context n
              = (some q, db ++ [(topic, q)]) := by
  rcases hc : complete (quiz_prompt topic n context) with e | s
  · left
    simp [generate_quiz, hc]
  · rcases hl : loads s with e | q
    · left
      simp [generate_quiz, hc, hl]
    · right
      exact ⟨s, q, rfl, hl, by simp [generate_quiz, hc, hl, save_quiz]⟩

/-- C9: `rewrite_query` is total (it never propagates an exception): when
the model call raises, the original query is returned unchanged; when it
succeeds, the stripped response text is returned. -/
theorem rewrite_query_fallback (complete : String → Except String String)
    (original_query : String) :
    (∀ e, complete (rewrite_prompt original_query) = Except.error e →
        rewrite_query complete original_query = original_query)
      ∧ (∀ r, complete (rewrite_prompt original_query) = Except.ok r →
          rewrite_query complete original_query = r.trim) := by
  constructor
  · intro e he
    simp [rewrite_query, he]
  · intro r hr
    simp [rewrite_query, hr]

/-- C9 witness: a failing model call falls back to the original query; a
successful one returns the stripped response. -/
theorem rewrite_query_fallback_witness :
    rewrite_query (fun _ => Except.error "timeout") "what is OOP" = "what is OOP"
      ∧ rewrite_query (fun _ => Except.ok " object-oriented programming ")
          "what is OOP" = " object-oriented programming ".trim :=
  ⟨(rewrite_query_fallback (fun _ => Except.error "timeout") "what is OOP").1
      "timeout" rfl,
   (rewrite_query_fallback (fun _ => Except.ok " object-oriented programming ")
      "what is OOP").2 " object-oriented programming " rfl⟩

/-- Scanning the scores returns `true` exactly when no score exceeds 0.7. -/
theorem confidence_scan_eq_true (l : List ℚ) :
    confidence_scan l = true ↔ ∀ s ∈ l, s ≤ 7/10 := by
  induction l with
  | nil => simp [confidence_scan]
  | cons a l ih =>
    rw [confidence_scan]
    by_cases ha : a > 7/10
    · rw [if_pos ha]
      simp only [List.mem_cons]
      constructor
      · intro h
        exact absurd h (by decide)
      · intro h
        exact absurd (h a (Or.inl rfl)) (not_le.mpr ha)
    · rw [if_neg ha, ih]
      simp only [List.mem_cons]
      constructor
      · intro h s hs
        rcases hs with rfl | hs
        · exact le_of_not_lt ha
        · exact h s hs
      · intro h s hs
        exact h s (Or.inr hs)

/-- C5: `_is_low_confidence` returns `True` exactly when there are no
source nodes or every node's score is at most the fixed threshold 0.7;
equivalently, confidence is high iff some retrieved chunk's score exceeds
0.7, and an empty retrieval forces low confidence. -/
theorem is_low_confidence_iff (response : QEResponse) :
    is_low_confidence response = true
      ↔ (response.source_nodes = [] ∨ ∀ s ∈ response.source_nodes, s ≤ 7/10) := by
  unfold is_low_confidence
  by_cases h : response.source_nodes = []
  · simp [h]
  · rw [if_neg h, confidence_scan_eq_true]
    constructor
    · exact fun hall => Or.inr hall
    · rintro (hnil | hall)
      · exact absurd hnil h
      · exact hall

/-- C5 witness: an empty retrieval is low confidence. -/
theorem is_low_confidence_iff_witness :
    is_low_confidence ⟨"a", []⟩ = true :=
  (is_low_confidence_iff ⟨"a", []⟩).mpr (Or.inl rfl)

/-- C6: in `EnhancedQueryEngine.query`, the video-search interface is
invoked iff confidence is low or the caller requested videos; every
invocation passes the original (non-rewritten) question; when confidence
is high and videos were not requested the returned list of videos is
empty; and when it is invoked, its results are attached to the answer. -/
theorem enhanced_query_enrichment (rewrite : String → String)
    (engine_query : String → QEResponse) (yt_search : String → List String)
    (question : String) (get_videos : Bool) :
    ((enhanced_query rewrite engine_query yt_search question get_videos).2 ≠ []
        ↔ (get_videos = true
            ∨ is_low_confidence (engine_query (rewrite question)) = true))
      ∧ (∀ a ∈ (enhanced_query rewrite engine_query yt_search question get_videos).2,
          a = question)
      ∧ (get_videos = false →
          is_low_confidence (engine_query (rewrite question)) = false →
          (enhanced_query rewrite engine_query yt_search question get_videos).1.videos
            = [])
      ∧ ((enhanced_query rewrite engine_query yt_search question get_videos).2 ≠ [] →
          (enhanced_query rewrite engine_query yt_search question get_videos).1.videos
            = yt_search question) := by
  cases get_videos with
  | true => simp [enhanced_query]
  | false =>
    cases hl : is_low_confidence (engine_query (rewrite question)) with
    | true => simp [enhanced_query, hl]
    | false => simp [enhanced_query, hl]

/-- C6 witness: with an empty retrieval (low confidence) and no explicit
video request, the video search is invoked with the original question and
its results are attached. -/
theorem enhanced_query_enrichment_witness :
    (enhanced_query (fun s => String.append s "?") (fun _ => ⟨"ans", []⟩)
        (fun s => [s]) "orig" false).1.videos = ["orig"] :=
  (enhanced_query_enrichment (fun s => String.append s "?") (fun _ => ⟨"ans", []⟩)
      (fun s => [s]) "orig" false).2.2.2 (by decide)

/-- C10: constructing a `YouTubeSearcher` with `YOUTUBE_API_KEY` unset
raises `ValueError`, and since `EnhancedQueryEngine.__init__` constructs
one, the whole engine fails to construct without the enrichment API key,
whatever the state of the vector store. -/
theorem youtube_key_required (env : String → Option String)
    (h : env "YOUTUBE_API_KEY" = none) :
    youtube_searcher_init env
        = Except.error "YouTube API key not found in environment variables"
      ∧ ∀ p eng, enhanced_query_engine_init p env ≠ Except.ok eng := by
  have hyt : youtube_searcher_init env
      = Except.error "YouTube API key not found in environment variables" := by
    unfold youtube_searcher_init
    rw [h]
  refine ⟨hyt, ?_⟩
  intro p eng
  unfold enhanced_query_engine_init
  cases p with
  | false => simp
  | true => simp [hyt]

/-- C10 witness: the empty environment. -/
theorem youtube_key_required_witness :
    youtube_searcher_init (fun _ => none)
        = Except.error "YouTube API key not found in environment variables"
      ∧ enhanced_query_engine_init true (fun _ => none) ≠ Except.ok ⟨⟨"k"⟩⟩ :=
  ⟨(youtube_key_required (fun _ => none) rfl).1,
   (youtube_key_required (fun _ => none) rfl).2 true ⟨⟨"k"⟩⟩⟩
